import Mathlib

/-!
Shallow embedding of the lab2life web application backend
(src/server/routes.ts, src/server/gemini.ts, src/server/storage.ts,
src/shared/schema.ts), together with theorems settling the frozen claims
about dose generation, lab-result ingestion, the interaction check and the
health-profile endpoints.

Conventions of the embedding:
* The relational store is modelled as in-memory lists of rows plus a
  next-serial counter; `insert ... returning` appends a row, `update`
  maps over the rows, `delete` filters them.
* Database columns that none of the verified routes read (dosage text,
  notes, separation rules, created-at timestamps, ...) are omitted from the
  row structures; every field an endpoint reads or writes is present.
* JavaScript numbers carried by the zod-validated health profile are
  modelled as `Rat`; ISO timestamp strings and calendar dates are opaque
  `String`s (`now` is passed as a parameter where the code calls
  `new Date()`).
* The Gemini collaborator (gemini.ts) is modelled by an `AIResponse`
  parameter describing the outcome of the underlying model call: the call
  threw, the response contained no JSON object, or a JSON payload parsed.
  The catch/fallback logic wrapped around that call is translated from the
  source of `extractLabData` / `checkInteractions`.
* A storage write that throws (the only thing the `try` of
  `processLabResult` in routes.ts can catch) is modelled by an optional
  index `storageFailAt` of the first failing write in the sequence the
  code performs.
-/

namespace L2L

/-! ### gemini.ts: collaborator outcomes -/

/-- Outcome of one Gemini model call, as observed by the wrappers in
gemini.ts: the request threw, the response text contained no JSON object
(`jsonMatch` failed), or a payload was parsed from the response. -/
inductive AIResponse (α : Type) where
  | throws
  | noJson
  | parsed (a : α)

/-- gemini.ts `ExtractedMarker`. -/
structure ExtractedMarker where
  name : String
  value : Rat
  unit : String
  normalMin : Rat
  normalMax : Rat
  status : String
  category : String
  deriving DecidableEq, Repr

/-- gemini.ts recommendation entry of `ExtractedData`. -/
structure ExtractedRecommendation where
  type : String
  title : String
  description : String
  priority : String
  relatedMarker : String
  actionItems : List String
  deriving DecidableEq, Repr

/-- gemini.ts `ExtractedData`. -/
structure ExtractedData where
  markers : List ExtractedMarker
  recommendations : List ExtractedRecommendation
  deriving DecidableEq, Repr

/-- gemini.ts `extractLabData`: every failure of the model call or of JSON
parsing is caught inside this function and converted to an empty
`ExtractedData`; it never throws. -/
def extractLabData : AIResponse ExtractedData → ExtractedData
  | .throws => ⟨[], []⟩
  | .noJson => ⟨[], []⟩
  | .parsed d => d

/-- gemini.ts `InteractionResult`. -/
structure InteractionResult where
  medicationId : Nat
  supplementId : Nat
  severity : String
  description : String
  recommendation : String
  deriving DecidableEq, Repr

/-- gemini.ts `checkInteractions`: returns `[]` immediately when either
input list is empty, otherwise the parsed payload, with every failure
converted to `[]`. -/
def checkInteractions (medications supplements : List (Nat × String))
    (ai : AIResponse (List InteractionResult)) : List InteractionResult :=
  if medications.isEmpty || supplements.isEmpty then []
  else
    match ai with
    | .throws => []
    | .noJson => []
    | .parsed rs => rs

/-! ### shared/schema.ts: data model -/

/-- schema.ts `HealthProfile` (also the shape validated by
`healthProfileSchema`, so it doubles as the PATCH body type). -/
structure HealthProfile where
  age : Option Rat := none
  sex : Option String := none
  heightCm : Option Rat := none
  weightKg : Option Rat := none
  allergies : Option (List String) := none
  conditions : Option (List String) := none
  currentMedications : Option (List String) := none
  activityLevel : Option String := none
  deriving DecidableEq, Repr

/-- schema.ts `HealthProfileStatus`. -/
structure HealthProfileStatus where
  isComplete : Bool
  skippedAt : Option String := none
  lastUpdated : Option String := none
  deriving DecidableEq, Repr

/-- schema.ts `users` row. -/
structure User where
  id : String
  username : String
  password : String
  healthProfile : Option HealthProfile
  healthProfileStatus : Option HealthProfileStatus
  deriving DecidableEq, Repr

/-- Helper for the zod range checks `z.number().min(lo).max(hi).optional()`:
an absent value passes, a present value must lie in `[lo, hi]`. -/
def optInRange (v : Option Rat) (lo hi : Rat) : Bool :=
  match v with
  | none => true
  | some x => decide (lo ≤ x) && decide (x ≤ hi)

/-- Helper for the zod enum checks `z.enum([...]).optional()`. -/
def optInEnum (v : Option String) (allowed : List String) : Bool :=
  match v with
  | none => true
  | some s => allowed.contains s

/-- schema.ts `healthProfileSchema.safeParse` success condition: age in
[1, 150], heightCm in [50, 300], weightKg in [10, 500], sex and
activityLevel in their enums, each field independently optional. -/
def healthProfileSchemaOk (p : HealthProfile) : Bool :=
  optInRange p.age 1 150 &&
  optInEnum p.sex ["male", "female", "other"] &&
  optInRange p.heightCm 50 300 &&
  optInRange p.weightKg 10 500 &&
  optInEnum p.activityLevel ["low", "moderate", "high"]

/-! ### routes.ts: demo user and health profile endpoints -/

/-- routes.ts `ensureDemoUser`: returns the stored demo user, creating it
with username/password "demo", an empty health profile and an incomplete
status when absent. -/
def ensureDemoUser (u : Option User) : User :=
  match u with
  | some user => user
  | none =>
      { id := "demo-user"
        username := "demo"
        password := "demo"
        healthProfile := some {}
        healthProfileStatus := some { isComplete := false } }

/-- routes.ts `computeHealthProfileComplete`: age, heightCm and weightKg
are all present (`typeof === "number"` on the zod-validated profile). -/
def computeHealthProfileComplete (hp : HealthProfile) : Bool :=
  hp.age.isSome && hp.heightCm.isSome && hp.weightKg.isSome

/-- One field of the JavaScript shallow merge `{ ...old, ...patch }`: a key
present in the patch overwrites, an absent key keeps the old value. -/
def mergeField {α : Type} (old patchVal : Option α) : Option α :=
  match patchVal with
  | some v => some v
  | none => old

/-- The shallow merge `{ ...(user.healthProfile || {}), ...updates }`
performed by PATCH /api/me/health-profile. -/
def mergeHealthProfile (old patch : HealthProfile) : HealthProfile :=
  { age := mergeField old.age patch.age
    sex := mergeField old.sex patch.sex
    heightCm := mergeField old.heightCm patch.heightCm
    weightKg := mergeField old.weightKg patch.weightKg
    allergies := mergeField old.allergies patch.allergies
    conditions := mergeField old.conditions patch.conditions
    currentMedications := mergeField old.currentMedications patch.currentMedications
    activityLevel := mergeField old.activityLevel patch.activityLevel }

/-- Response of PATCH /api/me/health-profile: 400 on validation failure,
otherwise the stored profile and recomputed status. -/
inductive PatchProfileResponse where
  | badRequest
  | ok (healthProfile : HealthProfile) (healthProfileStatus : HealthProfileStatus)
  deriving DecidableEq, Repr

/-- routes.ts PATCH /api/me/health-profile: validate the body with
`healthProfileSchema`, shallow-merge it into the stored profile, recompute
`isComplete`, set `lastUpdated` to now and clear `skippedAt`. Returns the
updated stored user (unchanged on validation failure) and the response. -/
def patchHealthProfileEndpoint (u : Option User) (body : HealthProfile) (now : String) :
    Option User × PatchProfileResponse :=
  if healthProfileSchemaOk body then
    let user := ensureDemoUser u
    let newHealthProfile := mergeHealthProfile (user.healthProfile.getD {}) body
    let newStatus : HealthProfileStatus :=
      { isComplete := computeHealthProfileComplete newHealthProfile
        lastUpdated := some now
        skippedAt := none }
    let updatedUser :=
      { user with
        healthProfile := some newHealthProfile
        healthProfileStatus := some newStatus }
    (some updatedUser, .ok newHealthProfile newStatus)
  else
    (u, .badRequest)

/-- routes.ts POST /api/me/health-profile/skip: spread the stored status
(falling back to `{ isComplete: false }`) and set `skippedAt` to now.
Returns the updated stored user and the new status. -/
def skipHealthProfileEndpoint (u : Option User) (now : String) :
    Option User × HealthProfileStatus :=
  let user := ensureDemoUser u
  let newStatus :=
    { user.healthProfileStatus.getD { isComplete := false } with skippedAt := some now }
  let updatedUser := { user with healthProfileStatus := some newStatus }
  (some updatedUser, newStatus)

/-- The shape serialized by GET /api/me after
`const { password, ...userWithoutPassword } = user`. -/
structure PublicUser where
  id : String
  username : String
  healthProfile : Option HealthProfile
  healthProfileStatus : Option HealthProfileStatus
  deriving DecidableEq, Repr

/-- Destructuring `const { password, ...userWithoutPassword } = user`. -/
def stripPassword (u : User) : PublicUser :=
  { id := u.id
    username := u.username
    healthProfile := u.healthProfile
    healthProfileStatus := u.healthProfileStatus }

/-- routes.ts GET /api/me: fetch (or lazily create) the demo user and
respond with every field except the password. -/
def getMe (u : Option User) : PublicUser :=
  stripPassword (ensureDemoUser u)

/-! ### schema.ts / storage.ts: pills and doses -/

/-- schema.ts `medications` row, restricted to the columns the verified
routes read: serial id, name, nullable timeBlock text and the active
flag. -/
structure Medication where
  id : Nat
  name : String
  timeBlock : Option String
  active : Bool
  deriving DecidableEq, Repr

/-- schema.ts `supplements` row, restricted to the columns the verified
routes read. -/
structure Supplement where
  id : Nat
  name : String
  timeBlock : Option String
  active : Bool
  deriving DecidableEq, Repr

/-- schema.ts `pill_doses` row. -/
structure PillDose where
  id : Nat
  pillType : String
  pillId : Nat
  scheduledDate : String
  scheduledTimeBlock : String
  status : String
  takenAt : Option String
  snoozedUntil : Option String
  deriving DecidableEq, Repr

/-- storage.ts pill-dose table: rows plus the serial counter. -/
structure DoseStore where
  doses : List PillDose
  nextId : Nat
  deriving DecidableEq, Repr

/-- storage.ts `getPillDosesByDate`. -/
def getPillDosesByDate (st : DoseStore) (date : String) : List PillDose :=
  st.doses.filter (fun d => d.scheduledDate == date)

/-- storage.ts `createPillDose` as called by the generator: insert a
pending dose with null takenAt/snoozedUntil, drawing the next serial id. -/
def createPillDose (st : DoseStore) (pillType : String) (pillId : Nat)
    (date timeBlock : String) : DoseStore :=
  { doses := st.doses ++
      [{ id := st.nextId
         pillType := pillType
         pillId := pillId
         scheduledDate := date
         scheduledTimeBlock := timeBlock
         status := "pending"
         takenAt := none
         snoozedUntil := none }]
    nextId := st.nextId + 1 }

/-- The JavaScript fallback `pill.timeBlock || "morning"`: null, undefined
and the empty string are falsy. -/
def effectiveTimeBlock (tb : Option String) : String :=
  match tb with
  | none => "morning"
  | some s => if s == "" then "morning" else s

/-- The template-literal natural key
`pillType + "-" + pillId + "-" + timeBlock` built by the generator. -/
def doseKey (pillType : String) (pillId : Nat) (timeBlock : String) : String :=
  pillType ++ "-" ++ Nat.repr pillId ++ "-" ++ timeBlock

/-- The natural key of a stored dose, as the generator computes it when it
builds `existingKeys` from the doses already present for the date. -/
def PillDose.key (d : PillDose) : String :=
  doseKey d.pillType d.pillId d.scheduledTimeBlock

/-- One `for (const pill of pills)` loop of the generate endpoint over the
`(id, timeBlock)` views of the active pills: insert a pending dose unless
the pill's key is in the `existingKeys` set computed before the loops. -/
def generateLoop (date pillType : String) (existingKeys : List String) :
    List (Nat × Option String) → DoseStore → DoseStore
  | [], st => st
  | (pid, tb) :: rest, st =>
      let timeBlock := effectiveTimeBlock tb
      let key := doseKey pillType pid timeBlock
      let st' :=
        if existingKeys.contains key then st
        else createPillDose st pillType pid date timeBlock
      generateLoop date pillType existingKeys rest st'

/-- The `(id, timeBlock)` view of the active rows of a medication table,
as read by the generate endpoint. -/
def activeMedViews (meds : List Medication) : List (Nat × Option String) :=
  (meds.filter (fun m => m.active)).map (fun m => (m.id, m.timeBlock))

/-- The `(id, timeBlock)` view of the active rows of a supplement table. -/
def activeSuppViews (supps : List Supplement) : List (Nat × Option String) :=
  (supps.filter (fun s => s.active)).map (fun s => (s.id, s.timeBlock))

/-- routes.ts POST /api/pill-doses/generate: snapshot the natural keys of
the doses already stored for the date, then run the medication loop and
the supplement loop against that snapshot. -/
def generateDoses (st : DoseStore) (date : String)
    (meds : List Medication) (supps : List Supplement) : DoseStore :=
  let existingKeys := (getPillDosesByDate st date).map PillDose.key
  let st1 := generateLoop date "medication" existingKeys (activeMedViews meds) st
  generateLoop date "supplement" existingKeys (activeSuppViews supps) st1

/-- Proof-side characterization of the doses one `generateLoop` run
inserts, starting from serial id `n`. -/
def insertedDoses (date pillType : String) (existingKeys : List String) :
    List (Nat × Option String) → Nat → List PillDose
  | [], _ => []
  | (pid, tb) :: rest, n =>
      let timeBlock := effectiveTimeBlock tb
      let key := doseKey pillType pid timeBlock
      if existingKeys.contains key then insertedDoses date pillType existingKeys rest n
      else
        { id := n
          pillType := pillType
          pillId := pid
          scheduledDate := date
          scheduledTimeBlock := timeBlock
          status := "pending"
          takenAt := none
          snoozedUntil := none } :: insertedDoses date pillType existingKeys rest (n + 1)

/-! ### schema.ts / storage.ts / routes.ts: interactions -/

/-- schema.ts `interactions` row. -/
structure InteractionRow where
  id : Nat
  medicationId : Option Nat
  supplementId : Option Nat
  severity : String
  description : String
  recommendation : String
  separationMinutes : Option Nat
  deriving DecidableEq, Repr

/-- storage.ts interaction table: rows plus the serial counter. -/
structure InteractionStore where
  rows : List InteractionRow
  nextId : Nat
  deriving DecidableEq, Repr

/-- storage.ts `deleteAllInteractions`. -/
def deleteAllInteractions (t : InteractionStore) : InteractionStore :=
  { t with rows := [] }

/-- storage.ts `createInteraction` as called by the check endpoint (no
separationMinutes is passed, so the column is null). -/
def createInteraction (t : InteractionStore) (r : InteractionResult) : InteractionStore :=
  { rows := t.rows ++
      [{ id := t.nextId
         medicationId := some r.medicationId
         supplementId := some r.supplementId
         severity := r.severity
         description := r.description
         recommendation := r.recommendation
         separationMinutes := none }]
    nextId := t.nextId + 1 }

/-- routes.ts POST /api/interactions/check: filter to active medications
and supplements, call the collaborator on their `(id, name)` pairs, delete
every stored interaction, insert the returned set and respond with the
resulting table contents. -/
def checkInteractionsEndpoint (meds : List Medication) (supps : List Supplement)
    (t : InteractionStore) (ai : AIResponse (List InteractionResult)) :
    InteractionStore × List InteractionRow :=
  let medications := meds.filter (fun m => m.active)
  let supplements := supps.filter (fun s => s.active)
  let interactionResults :=
    checkInteractions (medications.map (fun m => (m.id, m.name)))
      (supplements.map (fun s => (s.id, s.name))) ai
  let t1 := deleteAllInteractions t
  let t2 := interactionResults.foldl createInteraction t1
  (t2, t2.rows)

/-- Proof-side characterization of the rows the check endpoint inserts
from the collaborator results, starting from serial id `n`. -/
def insertedInteractionRows : List InteractionResult → Nat → List InteractionRow
  | [], _ => []
  | r :: rest, n =>
      { id := n
        medicationId := some r.medicationId
        supplementId := some r.supplementId
        severity := r.severity
        description := r.description
        recommendation := r.recommendation
        separationMinutes := none } :: insertedInteractionRows rest (n + 1)

/-! ### schema.ts / storage.ts / routes.ts: lab-result ingestion -/

/-- schema.ts `lab_results` row (upload date omitted: unread by the
verified logic). -/
structure LabResult where
  id : Nat
  fileName : String
  rawText : Option String
  status : String
  deriving DecidableEq, Repr

/-- schema.ts `health_markers` row; numeric values arrive as
decimal-string coercions (`String(marker.value)`). -/
structure HealthMarkerRow where
  id : Nat
  labResultId : Option Nat
  name : String
  value : String
  unit : String
  normalMin : String
  normalMax : String
  status : String
  category : String
  deriving DecidableEq, Repr

/-- schema.ts `recommendations` row. -/
structure RecommendationRow where
  id : Nat
  labResultId : Option Nat
  type : String
  title : String
  description : String
  priority : String
  relatedMarker : String
  actionItems : List String
  deriving DecidableEq, Repr

/-- storage.ts tables touched by the ingestion pipeline. -/
structure LabStore where
  labResults : List LabResult
  healthMarkers : List HealthMarkerRow
  recommendations : List RecommendationRow
  nextMarkerId : Nat
  nextRecId : Nat
  deriving DecidableEq, Repr

/-- storage.ts `createHealthMarker` as called by `processLabResult`:
numeric fields go through `String(...)`. -/
def createHealthMarker (st : LabStore) (labResultId : Nat) (m : ExtractedMarker) : LabStore :=
  { st with
    healthMarkers := st.healthMarkers ++
      [{ id := st.nextMarkerId
         labResultId := some labResultId
         name := m.name
         value := toString m.value
         unit := m.unit
         normalMin := toString m.normalMin
         normalMax := toString m.normalMax
         status := m.status
         category := m.category }]
    nextMarkerId := st.nextMarkerId + 1 }

/-- storage.ts `createRecommendation` as called by `processLabResult`. -/
def createRecommendation (st : LabStore) (labResultId : Nat)
    (r : ExtractedRecommendation) : LabStore :=
  { st with
    recommendations := st.recommendations ++
      [{ id := st.nextRecId
         labResultId := some labResultId
         type := r.type
         title := r.title
         description := r.description
         priority := r.priority
         relatedMarker := r.relatedMarker
         actionItems := r.actionItems }]
    nextRecId := st.nextRecId + 1 }

/-- The `for (const marker of extractedData.markers)` loop. -/
def insertMarkers (st : LabStore) (labResultId : Nat) (ms : List ExtractedMarker) : LabStore :=
  ms.foldl (fun s m => createHealthMarker s labResultId m) st

/-- The `for (const rec of extractedData.recommendations)` loop. -/
def insertRecs (st : LabStore) (labResultId : Nat) (rs : List ExtractedRecommendation) : LabStore :=
  rs.foldl (fun s r => createRecommendation s labResultId r) st

/-- storage.ts `updateLabResult(id, { status: "completed", rawText })`. -/
def updateLabResultCompleted (st : LabStore) (id : Nat) (rawText : String) : LabStore :=
  { st with
    labResults := st.labResults.map (fun r =>
      if r.id == id then { r with status := "completed", rawText := some rawText } else r) }

/-- storage.ts `updateLabResult(id, { status: "error" })` from the catch
block. -/
def updateLabResultError (st : LabStore) (id : Nat) : LabStore :=
  { st with
    labResults := st.labResults.map (fun r =>
      if r.id == id then { r with status := "error" } else r) }

/-- routes.ts `processLabResult`. `ai` is the outcome of the Gemini call
(swallowed inside `extractLabData`); `storageFailAt = some n` means the
n-th storage write of the try block (markers first, then recommendations,
then the final status update) throws, landing in the catch block after the
first `n` writes persisted. -/
def processLabResult (st : LabStore) (labResultId : Nat) (rawText : String)
    (ai : AIResponse ExtractedData) (storageFailAt : Option Nat) : LabStore :=
  let extractedData := extractLabData ai
  let writes := extractedData.markers.length + extractedData.recommendations.length
  let failed : Bool :=
    match storageFailAt with
    | none => false
    | some n => decide (n ≤ writes)
  if failed then
    let n := storageFailAt.getD 0
    let st1 := insertMarkers st labResultId (extractedData.markers.take (min n extractedData.markers.length))
    let st2 := insertRecs st1 labResultId (extractedData.recommendations.take (n - extractedData.markers.length))
    updateLabResultError st2 labResultId
  else
    let st1 := insertMarkers st labResultId extractedData.markers
    let st2 := insertRecs st1 labResultId extractedData.recommendations
    updateLabResultCompleted st2 labResultId rawText

/-- storage.ts `getLabResult`. -/
def getLabResult (st : LabStore) (id : Nat) : Option LabResult :=
  st.labResults.find? (fun r => r.id == id)

/-- Proof-side characterization of the marker rows the ingestion loop
writes, starting from serial id `n`. -/
def markerRows (lid : Nat) : List ExtractedMarker → Nat → List HealthMarkerRow
  | [], _ => []
  | m :: rest, n =>
      { id := n
        labResultId := some lid
        name := m.name
        value := toString m.value
        unit := m.unit
        normalMin := toString m.normalMin
        normalMax := toString m.normalMax
        status := m.status
        category := m.category } :: markerRows lid rest (n + 1)

/-- Proof-side characterization of the recommendation rows the ingestion
loop writes, starting from serial id `n`. -/
def recRows (lid : Nat) : List ExtractedRecommendation → Nat → List RecommendationRow
  | [], _ => []
  | r :: rest, n =>
      { id := n
        labResultId := some lid
        type := r.type
        title := r.title
        description := r.description
        priority := r.priority
        relatedMarker := r.relatedMarker
        actionItems := r.actionItems } :: recRows lid rest (n + 1)

/-! ### Theorems about the health profile endpoints and GET /api/me -/

/-- C9: the GET /api/me response never contains the password field: for any
two stored users differing only in password, the endpoint's response body
is identical (the password is stripped before serialization). -/
theorem getMe_omits_password (u : User) (p : String) :
    getMe (some { u with password := p }) = getMe (some u) := rfl

/-- C7: for every user state, calling the skip endpoint sets
`healthProfileStatus.skippedAt` to the current time and changes nothing
else: the profile, username, password and the status fields `isComplete`
and `lastUpdated` are unchanged. -/
theorem skip_only_sets_skippedAt (u : User) (now : String) (st0 : HealthProfileStatus)
    (h : u.healthProfileStatus = some st0) :
    skipHealthProfileEndpoint (some u) now =
      (some { u with healthProfileStatus := some { st0 with skippedAt := some now } },
       { st0 with skippedAt := some now }) := by
  simp [skipHealthProfileEndpoint, ensureDemoUser, h]

/-- Witness for C7 at a concrete user: skipping only sets `skippedAt`,
leaving `isComplete = true`, `lastUpdated` and the profile intact. -/
theorem skip_only_sets_skippedAt_witness :
    skipHealthProfileEndpoint
        (some ⟨"u1", "demo", "pw", some {}, some ⟨true, none, some "2024-01-01"⟩⟩) "2024-02-02" =
      (some ⟨"u1", "demo", "pw", some {}, some ⟨true, some "2024-02-02", some "2024-01-01"⟩⟩,
       ⟨true, some "2024-02-02", some "2024-01-01"⟩) :=
  skip_only_sets_skippedAt ⟨"u1", "demo", "pw", some {}, some ⟨true, none, some "2024-01-01"⟩⟩
    "2024-02-02" ⟨true, none, some "2024-01-01"⟩ rfl

/-- C10: a health-profile patch with age outside [1, 150], heightCm
outside [50, 300] or weightKg outside [10, 500] fails schema validation,
so the endpoint answers 400 and the stored user is left unchanged. -/
theorem patch_rejects_out_of_range (u : Option User) (body : HealthProfile) (now : String)
    (h : (∃ a, body.age = some a ∧ (a < 1 ∨ 150 < a)) ∨
         (∃ x, body.heightCm = some x ∧ (x < 50 ∨ 300 < x)) ∨
         (∃ w, body.weightKg = some w ∧ (w < 10 ∨ 500 < w))) :
    patchHealthProfileEndpoint u body now = (u, PatchProfileResponse.badRequest) := by
  have hko : healthProfileSchemaOk body = false := by
    rcases h with ⟨a, ha, h1 | h1⟩ | ⟨x, hx, h1 | h1⟩ | ⟨w, hw, h1 | h1⟩
    · have hd : decide ((1 : Rat) ≤ a) = false := decide_eq_false (not_le.mpr h1)
      simp [healthProfileSchemaOk, optInRange, ha, hd]
    · have hd : decide (a ≤ (150 : Rat)) = false := decide_eq_false (not_le.mpr h1)
      simp [healthProfileSchemaOk, optInRange, ha, hd]
    · have hd : decide ((50 : Rat) ≤ x) = false := decide_eq_false (not_le.mpr h1)
      simp [healthProfileSchemaOk, optInRange, hx, hd]
    · have hd : decide (x ≤ (300 : Rat)) = false := decide_eq_false (not_le.mpr h1)
      simp [healthProfileSchemaOk, optInRange, hx, hd]
    · have hd : decide ((10 : Rat) ≤ w) = false := decide_eq_false (not_le.mpr h1)
      simp [healthProfileSchemaOk, optInRange, hw, hd]
    · have hd : decide (w ≤ (500 : Rat)) = false := decide_eq_false (not_le.mpr h1)
      simp [healthProfileSchemaOk, optInRange, hw, hd]
  simp [patchHealthProfileEndpoint, hko]

/-- Witness for C10: a patch with age 200 is rejected and the (absent)
stored user is untouched. -/
theorem patch_rejects_out_of_range_witness :
    patchHealthProfileEndpoint none
        ⟨some 200, none, none, none, none, none, none, none⟩ "2024-02-02" =
      (none, PatchProfileResponse.badRequest) :=
  patch_rejects_out_of_range none ⟨some 200, none, none, none, none, none, none, none⟩
    "2024-02-02" (Or.inl ⟨200, rfl, Or.inr (by norm_num)⟩)

/-- C4: after any valid patch to the health profile, the stored
`healthProfileStatus.isComplete` is true exactly when age, heightCm and
weightKg are all present in the merged profile, independent of every other
field. -/
theorem patch_isComplete_iff_required_fields (u : Option User) (body : HealthProfile)
    (now : String) (h : healthProfileSchemaOk body = true) :
    ∃ u' hp st',
      (patchHealthProfileEndpoint u body now).1 = some u' ∧
      u'.healthProfile = some hp ∧ u'.healthProfileStatus = some st' ∧
      st'.isComplete = (hp.age.isSome && hp.heightCm.isSome && hp.weightKg.isSome) := by
  simp only [patchHealthProfileEndpoint, h, if_true]
  exact ⟨_, _, _, rfl, rfl, rfl, rfl⟩

/-- Witness for C4 at a concrete input: patching the empty profile of a
fresh demo user with only an age leaves `isComplete` false, matching the
absence of heightCm and weightKg. -/
theorem patch_isComplete_iff_required_fields_witness :
    ∃ u' hp st',
      (patchHealthProfileEndpoint none
          ⟨some 30, none, none, none, none, none, none, none⟩ "2024-02-02").1 = some u' ∧
      u'.healthProfile = some hp ∧ u'.healthProfileStatus = some st' ∧
      st'.isComplete = (hp.age.isSome && hp.heightCm.isSome && hp.weightKg.isSome) :=
  patch_isComplete_iff_required_fields none
    ⟨some 30, none, none, none, none, none, none, none⟩ "2024-02-02" (by decide)

/-- C6: every valid patch (the empty one included) leaves
`healthProfileStatus.skippedAt` unset, sets `lastUpdated` to the current
time, and every field omitted from the patch keeps its prior value in the
stored profile (shallow merge). -/
theorem patch_clears_skippedAt (u : Option User) (body : HealthProfile) (now : String)
    (h : healthProfileSchemaOk body = true) :
    ∃ u' hp st',
      (patchHealthProfileEndpoint u body now).1 = some u' ∧
      u'.healthProfile = some hp ∧ u'.healthProfileStatus = some st' ∧
      st'.skippedAt = none ∧ st'.lastUpdated = some now ∧
      (body.age = none → hp.age = ((ensureDemoUser u).healthProfile.getD {}).age) ∧
      (body.sex = none → hp.sex = ((ensureDemoUser u).healthProfile.getD {}).sex) ∧
      (body.heightCm = none → hp.heightCm = ((ensureDemoUser u).healthProfile.getD {}).heightCm) ∧
      (body.weightKg = none → hp.weightKg = ((ensureDemoUser u).healthProfile.getD {}).weightKg) ∧
      (body.allergies = none → hp.allergies = ((ensureDemoUser u).healthProfile.getD {}).allergies) ∧
      (body.conditions = none →
        hp.conditions = ((ensureDemoUser u).healthProfile.getD {}).conditions) ∧
      (body.currentMedications = none →
        hp.currentMedications = ((ensureDemoUser u).healthProfile.getD {}).currentMedications) ∧
      (body.activityLevel = none →
        hp.activityLevel = ((ensureDemoUser u).healthProfile.getD {}).activityLevel) := by
  simp only [patchHealthProfileEndpoint, h, if_true]
  refine ⟨_, _, _, rfl, rfl, rfl, rfl, rfl, ?_, ?_, ?_, ?_, ?_, ?_, ?_, ?_⟩ <;>
    intro hb <;> simp [mergeHealthProfile, mergeField, hb]

/-- Witness for C6 with the empty patch on a fresh demo user: `skippedAt`
ends unset, `lastUpdated` is stamped, and every profile field keeps its
prior (empty) value. -/
theorem patch_clears_skippedAt_witness :
    ∃ u' hp st',
      (patchHealthProfileEndpoint none ({} : HealthProfile) "2024-02-02").1 = some u' ∧
      u'.healthProfile = some hp ∧ u'.healthProfileStatus = some st' ∧
      st'.skippedAt = none ∧ st'.lastUpdated = some "2024-02-02" ∧
      (({} : HealthProfile).age = none →
        hp.age = ((ensureDemoUser none).healthProfile.getD {}).age) ∧
      (({} : HealthProfile).sex = none →
        hp.sex = ((ensureDemoUser none).healthProfile.getD {}).sex) ∧
      (({} : HealthProfile).heightCm = none →
        hp.heightCm = ((ensureDemoUser none).healthProfile.getD {}).heightCm) ∧
      (({} : HealthProfile).weightKg = none →
        hp.weightKg = ((ensureDemoUser none).healthProfile.getD {}).weightKg) ∧
      (({} : HealthProfile).allergies = none →
        hp.allergies = ((ensureDemoUser none).healthProfile.getD {}).allergies) ∧
      (({} : HealthProfile).conditions = none →
        hp.conditions = ((ensureDemoUser none).healthProfile.getD {}).conditions) ∧
      (({} : HealthProfile).currentMedications = none →
        hp.currentMedications = ((ensureDemoUser none).healthProfile.getD {}).currentMedications) ∧
      (({} : HealthProfile).activityLevel = none →
        hp.activityLevel = ((ensureDemoUser none).healthProfile.getD {}).activityLevel) :=
  patch_clears_skippedAt none ({} : HealthProfile) "2024-02-02" (by decide)

/-! ### Theorems about the interaction check -/

/-- Folding the check endpoint's insert loop appends exactly the rows
built from the collaborator results, consuming serial ids in order. -/
theorem foldl_createInteraction (rs : List InteractionResult) (t : InteractionStore) :
    rs.foldl createInteraction t =
      ⟨t.rows ++ insertedInteractionRows rs t.nextId, t.nextId + rs.length⟩ := by
  induction rs generalizing t with
  | nil => simp [insertedInteractionRows]
  | cons r rest ih =>
      show rest.foldl createInteraction (createInteraction t r) = _
      rw [ih]
      simp [createInteraction, insertedInteractionRows, List.append_assoc]
      omega

/-- C5: the interaction check fully replaces the table with the rows built
from the collaborator's returned set, whatever was stored before; in
particular, with zero active medications or zero active supplements the
collaborator is short-circuited to an empty set, the response is empty and
the table ends empty. -/
theorem interactions_check_replaces (meds : List Medication) (supps : List Supplement)
    (t : InteractionStore) (ai : AIResponse (List InteractionResult)) :
    (checkInteractionsEndpoint meds supps t ai).1.rows =
      insertedInteractionRows
        (checkInteractions ((meds.filter (fun m => m.active)).map (fun m => (m.id, m.name)))
          ((supps.filter (fun s => s.active)).map (fun s => (s.id, s.name))) ai) t.nextId ∧
    ((meds.filter (fun m => m.active) = [] ∨ supps.filter (fun s => s.active) = []) →
      (checkInteractionsEndpoint meds supps t ai).2 = [] ∧
      (checkInteractionsEndpoint meds supps t ai).1.rows = []) := by
  constructor
  · simp [checkInteractionsEndpoint, deleteAllInteractions, foldl_createInteraction]
  · intro h
    have hempty :
        checkInteractions ((meds.filter (fun m => m.active)).map (fun m => (m.id, m.name)))
          ((supps.filter (fun s => s.active)).map (fun s => (s.id, s.name))) ai = [] := by
      rcases h with h | h <;> simp [checkInteractions, h]
    simp [checkInteractionsEndpoint, deleteAllInteractions, foldl_createInteraction, hempty,
      insertedInteractionRows]

/-- Witness for C5: with one prior stored interaction, no active
medications and one active supplement, the check responds with the empty
list and clears the table. -/
theorem interactions_check_replaces_witness :
    (checkInteractionsEndpoint [] [⟨2, "Vitamin D", some "morning", true⟩]
        ⟨[⟨5, some 1, some 2, "mild", "old", "old advice", none⟩], 6⟩
        AIResponse.noJson).2 = [] ∧
    (checkInteractionsEndpoint [] [⟨2, "Vitamin D", some "morning", true⟩]
        ⟨[⟨5, some 1, some 2, "mild", "old", "old advice", none⟩], 6⟩
        AIResponse.noJson).1.rows = [] :=
  (interactions_check_replaces [] [⟨2, "Vitamin D", some "morning", true⟩]
      ⟨[⟨5, some 1, some 2, "mild", "old", "old advice", none⟩], 6⟩
      AIResponse.noJson).2 (Or.inl rfl)

/-! ### Theorems about the lab-result ingestion pipeline -/

/-- The marker loop appends exactly the marker rows and advances the
marker serial; no other table is touched. -/
theorem insertMarkers_eq (lid : Nat) (ms : List ExtractedMarker) (st : LabStore) :
    insertMarkers st lid ms =
      { st with
        healthMarkers := st.healthMarkers ++ markerRows lid ms st.nextMarkerId
        nextMarkerId := st.nextMarkerId + ms.length } := by
  induction ms generalizing st with
  | nil => simp [insertMarkers, markerRows]
  | cons m rest ih =>
      show insertMarkers (createHealthMarker st lid m) lid rest = _
      rw [ih]
      cases st
      simp [createHealthMarker, markerRows, List.append_assoc]
      omega

/-- The recommendation loop appends exactly the recommendation rows and
advances the recommendation serial; no other table is touched. -/
theorem insertRecs_eq (lid : Nat) (rs : List ExtractedRecommendation) (st : LabStore) :
    insertRecs st lid rs =
      { st with
        recommendations := st.recommendations ++ recRows lid rs st.nextRecId
        nextRecId := st.nextRecId + rs.length } := by
  induction rs generalizing st with
  | nil => simp [insertRecs, recRows]
  | cons r rest ih =>
      show insertRecs (createRecommendation st lid r) lid rest = _
      rw [ih]
      cases st
      simp [createRecommendation, recRows, List.append_assoc]
      omega

/-- The rows produced by `markerRows` are one per extracted marker. -/
theorem markerRows_length (lid : Nat) (ms : List ExtractedMarker) (n : Nat) :
    (markerRows lid ms n).length = ms.length := by
  induction ms generalizing n with
  | nil => rfl
  | cons m rest ih => simp [markerRows, ih]

/-- After the catch-block update, every stored lab result with the updated
id carries status "error". -/
theorem updateLabResultError_status (st : LabStore) (lid : Nat) :
    ∀ r ∈ (updateLabResultError st lid).labResults, r.id = lid → r.status = "error" := by
  intro r hr hid
  simp only [updateLabResultError, List.mem_map] at hr
  obtain ⟨r0, _, rfl⟩ := hr
  cases hbeq : r0.id == lid with
  | true => simp [hbeq]
  | false =>
      rw [if_neg (by simp [hbeq])] at hid ⊢
      exact absurd (by simp [hid] : (r0.id == lid) = true) (by simp [hbeq])

/-- After the success-path update, every stored lab result with the
updated id carries status "completed". -/
theorem updateLabResultCompleted_status (st : LabStore) (lid : Nat) (raw : String) :
    ∀ r ∈ (updateLabResultCompleted st lid raw).labResults,
      r.id = lid → r.status = "completed" := by
  intro r hr hid
  simp only [updateLabResultCompleted, List.mem_map] at hr
  obtain ⟨r0, _, rfl⟩ := hr
  cases hbeq : r0.id == lid with
  | true => simp [hbeq]
  | false =>
      rw [if_neg (by simp [hbeq])] at hid ⊢
      exact absurd (by simp [hid] : (r0.id == lid) = true) (by simp [hbeq])

/-- Counterexample to C3 as stated: when the AI call itself fails
(`extractLabData` catches the error and returns empty data), the pipeline
runs its success path and marks the lab result "completed", not "error". -/
theorem processLabResult_ai_failure_completes :
    (processLabResult ⟨[⟨1, "report.pdf", none, "processing"⟩], [], [], 1, 1⟩ 1 "raw text"
        AIResponse.throws none).labResults =
      [⟨1, "report.pdf", some "raw text", "completed"⟩] := by
  rfl

/-- C3 amended: only a storage write throwing inside the try block reaches
the catch: then the lab result's status is set to "error" and the marker
rows written before the failure stay stored (no rollback). An AI
extraction failure instead yields empty extracted data and status
"completed", with no marker added. -/
theorem processLabResult_failure_amended (st : LabStore) (lid : Nat) (raw : String)
    (d : ExtractedData) (n : Nat) :
    (n ≤ d.markers.length + d.recommendations.length →
      (∀ r ∈ (processLabResult st lid raw (AIResponse.parsed d) (some n)).labResults,
          r.id = lid → r.status = "error") ∧
      ∃ written,
        (processLabResult st lid raw (AIResponse.parsed d) (some n)).healthMarkers =
          st.healthMarkers ++ written ∧
        written.length = min n d.markers.length) ∧
    ((processLabResult st lid raw AIResponse.throws none).healthMarkers = st.healthMarkers ∧
      (processLabResult st lid raw AIResponse.throws none).recommendations =
        st.recommendations ∧
      ∀ r ∈ (processLabResult st lid raw AIResponse.throws none).labResults,
        r.id = lid → r.status = "completed") := by
  constructor
  · intro hn
    have heq : processLabResult st lid raw (AIResponse.parsed d) (some n) =
        updateLabResultError
          (insertRecs (insertMarkers st lid (d.markers.take (min n d.markers.length))) lid
            (d.recommendations.take (n - d.markers.length))) lid := by
      simp [processLabResult, extractLabData, hn]
    constructor
    · intro r hr hid
      exact updateLabResultError_status _ lid r (heq ▸ hr) hid
    · refine ⟨markerRows lid (d.markers.take (min n d.markers.length)) st.nextMarkerId,
        ?_, ?_⟩
      · rw [heq]
        simp [insertMarkers_eq, insertRecs_eq, updateLabResultError]
      · rw [markerRows_length, List.length_take]
        omega
  · have heq2 : processLabResult st lid raw AIResponse.throws none =
        updateLabResultCompleted st lid raw := by
      simp [processLabResult, extractLabData, insertMarkers, insertRecs]
    refine ⟨?_, ?_, ?_⟩
    · rw [heq2]; rfl
    · rw [heq2]; rfl
    · intro r hr hid
      exact updateLabResultCompleted_status st lid raw r (heq2 ▸ hr) hid

/-- Witness for the amended C3: with one extracted marker and the first
storage write failing before the status update, the lab result ends in
status "error" with the one marker row already persisted; the AI-throw
branch ends "completed". -/
theorem processLabResult_failure_amended_witness :
    ((∀ r ∈ (processLabResult ⟨[⟨1, "report.pdf", none, "processing"⟩], [], [], 1, 1⟩ 1
          "raw text"
          (AIResponse.parsed ⟨[⟨"Vitamin D", 18, "ng/mL", 30, 100, "low", "vitamins"⟩], []⟩)
          (some 1)).labResults,
        r.id = 1 → r.status = "error") ∧
      ∃ written,
        (processLabResult ⟨[⟨1, "report.pdf", none, "processing"⟩], [], [], 1, 1⟩ 1 "raw text"
            (AIResponse.parsed ⟨[⟨"Vitamin D", 18, "ng/mL", 30, 100, "low", "vitamins"⟩], []⟩)
            (some 1)).healthMarkers = [] ++ written ∧
        written.length =
          min 1 ([⟨"Vitamin D", 18, "ng/mL", 30, 100, "low", "vitamins"⟩] :
            List ExtractedMarker).length) ∧
    ((processLabResult ⟨[⟨1, "report.pdf", none, "processing"⟩], [], [], 1, 1⟩ 1 "raw text"
        AIResponse.throws none).healthMarkers = [] ∧
      (processLabResult ⟨[⟨1, "report.pdf", none, "processing"⟩], [], [], 1, 1⟩ 1 "raw text"
        AIResponse.throws none).recommendations = [] ∧
      ∀ r ∈ (processLabResult ⟨[⟨1, "report.pdf", none, "processing"⟩], [], [], 1, 1⟩ 1
          "raw text" AIResponse.throws none).labResults,
        r.id = 1 → r.status = "completed") :=
  ⟨(processLabResult_failure_amended ⟨[⟨1, "report.pdf", none, "processing"⟩], [], [], 1, 1⟩ 1
      "raw text" ⟨[⟨"Vitamin D", 18, "ng/mL", 30, 100, "low", "vitamins"⟩], []⟩ 1).1
    (by decide),
   (processLabResult_failure_amended ⟨[⟨1, "report.pdf", none, "processing"⟩], [], [], 1, 1⟩ 1
      "raw text" ⟨[⟨"Vitamin D", 18, "ng/mL", 30, 100, "low", "vitamins"⟩], []⟩ 1).2⟩

/-! ### Theorems about the dose generator -/

/-- The natural keys of different pill types never collide: a key built
with the "medication" tag differs from any key built with the
"supplement" tag. -/
theorem doseKey_med_ne_supp (i : Nat) (t : String) (j : Nat) (u : String) :
    doseKey "medication" i t ≠ doseKey "supplement" j u := by
  intro h
  have h' := congrArg String.data h
  simp only [doseKey, String.data_append] at h'
  simp at h'

/-- One generator loop appends exactly the doses characterized by
`insertedDoses` and advances the serial counter accordingly. -/
theorem generateLoop_eq (date pt : String) (keys : List String)
    (pills : List (Nat × Option String)) : ∀ st : DoseStore,
    generateLoop date pt keys pills st =
      ⟨st.doses ++ insertedDoses date pt keys pills st.nextId,
       st.nextId + (insertedDoses date pt keys pills st.nextId).length⟩ := by
  induction pills with
  | nil => intro st; simp [generateLoop, insertedDoses]
  | cons p rest ih =>
      intro st
      obtain ⟨pid, tb⟩ := p
      by_cases hmem : doseKey pt pid (effectiveTimeBlock tb) ∈ keys
      · simp [generateLoop, insertedDoses, hmem, ih]
      · simp [generateLoop, insertedDoses, hmem, ih, createPillDose, List.append_assoc]
        all_goals omega

/-- Every dose the generator loop inserts is a pending dose of the given
type, scheduled on the generated date, with null takenAt/snoozedUntil. -/
theorem insertedDoses_mem (date pt : String) (keys : List String)
    (pills : List (Nat × Option String)) : ∀ (n : Nat) (d : PillDose),
    d ∈ insertedDoses date pt keys pills n →
      d.scheduledDate = date ∧ d.status = "pending" ∧ d.pillType = pt ∧
      d.takenAt = none ∧ d.snoozedUntil = none := by
  induction pills with
  | nil => intro n d hd; simp [insertedDoses] at hd
  | cons p rest ih =>
      intro n d hd
      obtain ⟨pid, tb⟩ := p
      by_cases hmem : doseKey pt pid (effectiveTimeBlock tb) ∈ keys
      · rw [show insertedDoses date pt keys ((pid, tb) :: rest) n =
            insertedDoses date pt keys rest n from by simp [insertedDoses, hmem]] at hd
        exact ih n d hd
      · rw [show insertedDoses date pt keys ((pid, tb) :: rest) n =
            { id := n, pillType := pt, pillId := pid, scheduledDate := date
              scheduledTimeBlock := effectiveTimeBlock tb, status := "pending"
              takenAt := none, snoozedUntil := none } ::
              insertedDoses date pt keys rest (n + 1) from by
          simp [insertedDoses, hmem]] at hd
        rcases List.mem_cons.mp hd with rfl | hd'
        · exact ⟨rfl, rfl, rfl, rfl, rfl⟩
        · exact ih (n + 1) d hd'

/-- The keys of the doses one loop inserts are the keys of exactly those
pills whose key was not in the pre-loop snapshot. -/
theorem insertedDoses_keys_eq (date pt : String) (keys : List String)
    (pills : List (Nat × Option String)) : ∀ n : Nat,
    (insertedDoses date pt keys pills n).map PillDose.key =
      (pills.filter
        (fun p => !(keys.contains (doseKey pt p.1 (effectiveTimeBlock p.2))))).map
        (fun p => doseKey pt p.1 (effectiveTimeBlock p.2)) := by
  induction pills with
  | nil => intro n; simp [insertedDoses]
  | cons p rest ih =>
      intro n
      obtain ⟨pid, tb⟩ := p
      by_cases hmem : doseKey pt pid (effectiveTimeBlock tb) ∈ keys
      · simp [insertedDoses, hmem, List.filter_cons, ih]
      · simp [insertedDoses, hmem, List.filter_cons, ih, PillDose.key]

/-- Counting by key in a mapped-Nodup list: the natural-key filter keeps
exactly one element when the key occurs, none otherwise. -/
theorem length_filter_eq_of_nodup {α β : Type} [BEq β] [LawfulBEq β] (f : α → β)
    (l : List α) (h : (l.map f).Nodup) (k : β) :
    (l.filter (fun x => f x == k)).length = if k ∈ l.map f then 1 else 0 := by
  induction l with
  | nil => simp
  | cons a rest ih =>
      rw [List.map_cons, List.nodup_cons] at h
      obtain ⟨hna, hrest⟩ := h
      cases hak : f a == k with
      | true =>
          have hk : f a = k := eq_of_beq hak
          subst hk
          simp [List.filter_cons, List.mem_cons, hna, ih hrest]
      | false =>
          have hk : ¬(k = f a) := fun he => by simp [he] at hak
          have hfc : List.filter (fun x => f x == k) (a :: rest) =
              List.filter (fun x => f x == k) rest := by
            simp [List.filter_cons, hak]
          rw [hfc, ih hrest, List.map_cons]
          have hmc : (k ∈ f a :: List.map f rest) ↔ k ∈ List.map f rest := by
            simp [List.mem_cons, hk]
          simp only [hmc]

/-- Counting by key among the doses one loop inserts: zero when the key
was already in the snapshot, otherwise the number of processed pills
bearing that key. -/
theorem insertedDoses_filter_key (date pt : String) (keys : List String)
    (pills : List (Nat × Option String)) (k : String) : ∀ n : Nat,
    ((insertedDoses date pt keys pills n).filter (fun d => PillDose.key d == k)).length =
      if k ∈ keys then 0
      else (pills.filter
        (fun p => doseKey pt p.1 (effectiveTimeBlock p.2) == k)).length := by
  induction pills with
  | nil => intro n; by_cases hck : k ∈ keys <;> simp [insertedDoses, hck]
  | cons p rest ih =>
      intro n
      obtain ⟨pid, tb⟩ := p
      by_cases hmem : doseKey pt pid (effectiveTimeBlock tb) ∈ keys
      · by_cases hpk : doseKey pt pid (effectiveTimeBlock tb) = k
        · subst hpk
          simp [insertedDoses, hmem, List.filter_cons, ih]
        · simp [insertedDoses, hmem, List.filter_cons, hpk, ih]
      · by_cases hpk : doseKey pt pid (effectiveTimeBlock tb) = k
        · subst hpk
          simp [insertedDoses, hmem, List.filter_cons, ih, PillDose.key]
          simpa [PillDose.key, hmem] using ih (n + 1)
        · simp [insertedDoses, hmem, List.filter_cons, hpk, ih, PillDose.key]
          simpa [PillDose.key] using ih (n + 1)

/-- Unfolding the generate endpoint: the doses stored for the date
afterwards are the prior ones followed by the medication insertions and
the supplement insertions, both computed against the pre-call snapshot of
natural keys. -/
theorem generateDoses_byDate (st : DoseStore) (date : String) (meds : List Medication)
    (supps : List Supplement) :
    ∃ n1, getPillDosesByDate (generateDoses st date meds supps) date =
      getPillDosesByDate st date ++
        insertedDoses date "medication" ((getPillDosesByDate st date).map PillDose.key)
          (activeMedViews meds) st.nextId ++
        insertedDoses date "supplement" ((getPillDosesByDate st date).map PillDose.key)
          (activeSuppViews supps) n1 := by
  refine ⟨st.nextId +
      (insertedDoses date "medication" ((getPillDosesByDate st date).map PillDose.key)
        (activeMedViews meds) st.nextId).length, ?_⟩
  have hunfold : generateDoses st date meds supps =
      generateLoop date "supplement" ((getPillDosesByDate st date).map PillDose.key)
        (activeSuppViews supps)
        (generateLoop date "medication" ((getPillDosesByDate st date).map PillDose.key)
          (activeMedViews meds) st) := rfl
  rw [hunfold, generateLoop_eq, generateLoop_eq]
  have h1 : ∀ (pt : String) (pills : List (Nat × Option String)) (n : Nat),
      List.filter (fun d => d.scheduledDate == date)
        (insertedDoses date pt ((getPillDosesByDate st date).map PillDose.key) pills n) =
      insertedDoses date pt ((getPillDosesByDate st date).map PillDose.key) pills n :=
    fun pt pills n => List.filter_eq_self.mpr
      (fun d hd => beq_iff_eq.mpr (insertedDoses_mem date pt _ pills n d hd).1)
  simp only [getPillDosesByDate, List.filter_append] at h1 ⊢
  rw [h1, h1]

/-- A generator loop whose every pill key is already in the snapshot
inserts nothing. -/
theorem generateLoop_id (date pt : String) (keys : List String)
    (pills : List (Nat × Option String)) :
    ∀ st : DoseStore,
      (∀ p ∈ pills, keys.contains (doseKey pt p.1 (effectiveTimeBlock p.2)) = true) →
      generateLoop date pt keys pills st = st := by
  induction pills with
  | nil => intro st _; rfl
  | cons p rest ih =>
      intro st h
      obtain ⟨pid, tb⟩ := p
      have hp : doseKey pt pid (effectiveTimeBlock tb) ∈ keys := by
        simpa using h (pid, tb) (List.mem_cons_self _ _)
      rw [show generateLoop date pt keys ((pid, tb) :: rest) st =
          generateLoop date pt keys rest st from by simp [generateLoop, hp]]
      exact ih st (fun q hq => h q (List.mem_cons_of_mem _ hq))

/-- C8: the dose generator only inserts: the whole prior dose table is an
unchanged prefix of the resulting table (so every pre-existing dose keeps
its status, takenAt, snoozedUntil and time block), and everything added is
a pending dose for the generated date. -/
theorem generate_doses_only_inserts (st : DoseStore) (date : String)
    (meds : List Medication) (supps : List Supplement) :
    ∃ newDoses, (generateDoses st date meds supps).doses = st.doses ++ newDoses ∧
      (∀ d ∈ st.doses, d ∈ (generateDoses st date meds supps).doses) ∧
      ∀ d ∈ newDoses, d.scheduledDate = date ∧ d.status = "pending" ∧
        d.takenAt = none ∧ d.snoozedUntil = none := by
  have hunfold : generateDoses st date meds supps =
      generateLoop date "supplement" ((getPillDosesByDate st date).map PillDose.key)
        (activeSuppViews supps)
        (generateLoop date "medication" ((getPillDosesByDate st date).map PillDose.key)
          (activeMedViews meds) st) := rfl
  rw [hunfold, generateLoop_eq, generateLoop_eq]
  refine ⟨insertedDoses date "medication" ((getPillDosesByDate st date).map PillDose.key)
        (activeMedViews meds) st.nextId ++
      insertedDoses date "supplement" ((getPillDosesByDate st date).map PillDose.key)
        (activeSuppViews supps)
        (st.nextId + (insertedDoses date "medication"
          ((getPillDosesByDate st date).map PillDose.key) (activeMedViews meds)
          st.nextId).length),
    by simp [List.append_assoc], ?_, ?_⟩
  · intro d hd
    simp only [List.mem_append]
    exact Or.inl (Or.inl hd)
  · intro d hd
    rcases List.mem_append.mp hd with hd' | hd'
    · obtain ⟨h1, h2, _, h4, h5⟩ := insertedDoses_mem date "medication" _ _ _ d hd'
      exact ⟨h1, h2, h4, h5⟩
    · obtain ⟨h1, h2, _, h4, h5⟩ := insertedDoses_mem date "supplement" _ _ _ d hd'
      exact ⟨h1, h2, h4, h5⟩

/-- C2: the generate endpoint is idempotent: with the same date and the
same medication and supplement tables, running it a second time changes
nothing (in particular it inserts no new dose row). -/
theorem generate_doses_idempotent (st : DoseStore) (date : String)
    (meds : List Medication) (supps : List Supplement) :
    generateDoses (generateDoses st date meds supps) date meds supps =
      generateDoses st date meds supps := by
  obtain ⟨n1, hby⟩ := generateDoses_byDate st date meds supps
  have hmed : ∀ p ∈ activeMedViews meds,
      ((getPillDosesByDate (generateDoses st date meds supps) date).map
        PillDose.key).contains
        (doseKey "medication" p.1 (effectiveTimeBlock p.2)) = true := by
    intro p hp
    have hk : doseKey "medication" p.1 (effectiveTimeBlock p.2) ∈
        (getPillDosesByDate (generateDoses st date meds supps) date).map PillDose.key := by
      rw [hby]
      simp only [List.map_append, List.mem_append]
      by_cases hc : doseKey "medication" p.1 (effectiveTimeBlock p.2) ∈
          (getPillDosesByDate st date).map PillDose.key
      · exact Or.inl (Or.inl hc)
      · refine Or.inl (Or.inr ?_)
        rw [insertedDoses_keys_eq]
        exact List.mem_map.mpr ⟨p, List.mem_filter.mpr ⟨hp, by simp [hc]⟩, rfl⟩
    simpa using hk
  have hsupp : ∀ p ∈ activeSuppViews supps,
      ((getPillDosesByDate (generateDoses st date meds supps) date).map
        PillDose.key).contains
        (doseKey "supplement" p.1 (effectiveTimeBlock p.2)) = true := by
    intro p hp
    have hk : doseKey "supplement" p.1 (effectiveTimeBlock p.2) ∈
        (getPillDosesByDate (generateDoses st date meds supps) date).map PillDose.key := by
      rw [hby]
      simp only [List.map_append, List.mem_append]
      by_cases hc : doseKey "supplement" p.1 (effectiveTimeBlock p.2) ∈
          (getPillDosesByDate st date).map PillDose.key
      · exact Or.inl (Or.inl hc)
      · refine Or.inr ?_
        rw [insertedDoses_keys_eq]
        exact List.mem_map.mpr ⟨p, List.mem_filter.mpr ⟨hp, by simp [hc]⟩, rfl⟩
    simpa using hk
  have hunfold : generateDoses (generateDoses st date meds supps) date meds supps =
      generateLoop date "supplement"
        ((getPillDosesByDate (generateDoses st date meds supps) date).map PillDose.key)
        (activeSuppViews supps)
        (generateLoop date "medication"
          ((getPillDosesByDate (generateDoses st date meds supps) date).map PillDose.key)
          (activeMedViews meds) (generateDoses st date meds supps)) := rfl
  rw [hunfold, generateLoop_id _ _ _ _ _ hmed, generateLoop_id _ _ _ _ _ hsupp]

/-- C1: provided the medication ids, supplement ids and the stored keys
for the date are duplicate-free (the database's serial primary keys and
the generator's own invariant), one run of the generate endpoint leaves
exactly one dose for each active medication and each active supplement
under its natural key — with the time block defaulting to "morning" when
unset — and the doses stored for the date carry pairwise distinct natural
keys. -/
theorem generate_doses_unique (st : DoseStore) (date : String) (meds : List Medication)
    (supps : List Supplement)
    (hkeys : ((getPillDosesByDate st date).map PillDose.key).Nodup)
    (hm : ((activeMedViews meds).map
      (fun p => doseKey "medication" p.1 (effectiveTimeBlock p.2))).Nodup)
    (hs : ((activeSuppViews supps).map
      (fun p => doseKey "supplement" p.1 (effectiveTimeBlock p.2))).Nodup) :
    (∀ m ∈ meds.filter (fun m => m.active),
      ((getPillDosesByDate (generateDoses st date meds supps) date).filter
        (fun d => PillDose.key d ==
          doseKey "medication" m.id (effectiveTimeBlock m.timeBlock))).length = 1) ∧
    (∀ s ∈ supps.filter (fun s => s.active),
      ((getPillDosesByDate (generateDoses st date meds supps) date).filter
        (fun d => PillDose.key d ==
          doseKey "supplement" s.id (effectiveTimeBlock s.timeBlock))).length = 1) ∧
    ((getPillDosesByDate (generateDoses st date meds supps) date).map PillDose.key).Nodup := by
  obtain ⟨n1, hby⟩ := generateDoses_byDate st date meds supps
  refine ⟨?_, ?_, ?_⟩
  · intro m hmm
    have hview : (m.id, m.timeBlock) ∈ activeMedViews meds :=
      List.mem_map_of_mem _ hmm
    rw [hby, List.filter_append, List.filter_append, List.length_append, List.length_append,
      insertedDoses_filter_key, insertedDoses_filter_key,
      length_filter_eq_of_nodup PillDose.key _ hkeys]
    have hsupp0 : ((activeSuppViews supps).filter
        (fun p => doseKey "supplement" p.1 (effectiveTimeBlock p.2) ==
          doseKey "medication" m.id (effectiveTimeBlock m.timeBlock))) = [] := by
      rw [List.filter_eq_nil_iff]
      intro p _
      simp only [beq_iff_eq]
      exact fun he => doseKey_med_ne_supp m.id (effectiveTimeBlock m.timeBlock)
        p.1 (effectiveTimeBlock p.2) he.symm
    by_cases hc : doseKey "medication" m.id (effectiveTimeBlock m.timeBlock) ∈
        (getPillDosesByDate st date).map PillDose.key
    · simp [hc, hsupp0]
    · have hcount := length_filter_eq_of_nodup
        (fun p : Nat × Option String => doseKey "medication" p.1 (effectiveTimeBlock p.2))
        (activeMedViews meds) hm
        (doseKey "medication" m.id (effectiveTimeBlock m.timeBlock))
      rw [hcount]
      have hkmem : doseKey "medication" m.id (effectiveTimeBlock m.timeBlock) ∈
          (activeMedViews meds).map
            (fun p => doseKey "medication" p.1 (effectiveTimeBlock p.2)) :=
        List.mem_map.mpr ⟨(m.id, m.timeBlock), hview, rfl⟩
      simp [hc, hsupp0, hkmem]
  · intro s hss
    have hview : (s.id, s.timeBlock) ∈ activeSuppViews supps :=
      List.mem_map_of_mem _ hss
    rw [hby, List.filter_append, List.filter_append, List.length_append, List.length_append,
      insertedDoses_filter_key, insertedDoses_filter_key,
      length_filter_eq_of_nodup PillDose.key _ hkeys]
    have hmed0 : ((activeMedViews meds).filter
        (fun p => doseKey "medication" p.1 (effectiveTimeBlock p.2) ==
          doseKey "supplement" s.id (effectiveTimeBlock s.timeBlock))) = [] := by
      rw [List.filter_eq_nil_iff]
      intro p _
      simp only [beq_iff_eq]
      exact doseKey_med_ne_supp p.1 (effectiveTimeBlock p.2)
        s.id (effectiveTimeBlock s.timeBlock)
    by_cases hc : doseKey "supplement" s.id (effectiveTimeBlock s.timeBlock) ∈
        (getPillDosesByDate st date).map PillDose.key
    · simp [hc, hmed0]
    · have hcount := length_filter_eq_of_nodup
        (fun p : Nat × Option String => doseKey "supplement" p.1 (effectiveTimeBlock p.2))
        (activeSuppViews supps) hs
        (doseKey "supplement" s.id (effectiveTimeBlock s.timeBlock))
      rw [hcount]
      have hkmem : doseKey "supplement" s.id (effectiveTimeBlock s.timeBlock) ∈
          (activeSuppViews supps).map
            (fun p => doseKey "supplement" p.1 (effectiveTimeBlock p.2)) :=
        List.mem_map.mpr ⟨(s.id, s.timeBlock), hview, rfl⟩
      simp [hc, hmed0, hkmem]
  · rw [hby]
    simp only [List.map_append]
    rw [insertedDoses_keys_eq, insertedDoses_keys_eq]
    refine List.Nodup.append (List.Nodup.append hkeys ?_ ?_) ?_ ?_
    · exact List.Nodup.sublist (List.Sublist.map _ (List.filter_sublist _)) hm
    · intro a ha hb
      obtain ⟨p, hp, rfl⟩ := List.mem_map.mp hb
      have h2 := (List.mem_filter.mp hp).2
      simp only [Bool.not_eq_true'] at h2
      rw [show (((getPillDosesByDate st date).map PillDose.key).contains
          (doseKey "medication" p.1 (effectiveTimeBlock p.2))) = true from by
        simpa using ha] at h2
      exact Bool.noConfusion h2
    · exact List.Nodup.sublist (List.Sublist.map _ (List.filter_sublist _)) hs
    · refine List.disjoint_append_left.mpr ⟨?_, ?_⟩
      · intro a ha hb
        obtain ⟨p, hp, rfl⟩ := List.mem_map.mp hb
        have h2 := (List.mem_filter.mp hp).2
        simp only [Bool.not_eq_true'] at h2
        rw [show (((getPillDosesByDate st date).map PillDose.key).contains
            (doseKey "supplement" p.1 (effectiveTimeBlock p.2))) = true from by
          simpa using ha] at h2
        exact Bool.noConfusion h2
      · intro a ha hb
        obtain ⟨p, _, rfl⟩ := List.mem_map.mp hb
        obtain ⟨q, _, hqa⟩ := List.mem_map.mp ha
        exact doseKey_med_ne_supp q.1 (effectiveTimeBlock q.2)
          p.1 (effectiveTimeBlock p.2) hqa

/-- Witness for C1 on a concrete store: one active medication with unset
time block (defaulting to morning) and one active supplement produce
exactly one dose each, with duplicate-free natural keys. -/
theorem generate_doses_unique_witness :
    (∀ m ∈ ([⟨1, "Aspirin", none, true⟩] : List Medication).filter (fun m => m.active),
      ((getPillDosesByDate
          (generateDoses ⟨[], 1⟩ "2024-01-01" [⟨1, "Aspirin", none, true⟩]
            [⟨2, "Vitamin D", some "evening", true⟩]) "2024-01-01").filter
        (fun d => PillDose.key d ==
          doseKey "medication" m.id (effectiveTimeBlock m.timeBlock))).length = 1) ∧
    (∀ s ∈ ([⟨2, "Vitamin D", some "evening", true⟩] : List Supplement).filter
        (fun s => s.active),
      ((getPillDosesByDate
          (generateDoses ⟨[], 1⟩ "2024-01-01" [⟨1, "Aspirin", none, true⟩]
            [⟨2, "Vitamin D", some "evening", true⟩]) "2024-01-01").filter
        (fun d => PillDose.key d ==
          doseKey "supplement" s.id (effectiveTimeBlock s.timeBlock))).length = 1) ∧
    ((getPillDosesByDate
        (generateDoses ⟨[], 1⟩ "2024-01-01" [⟨1, "Aspirin", none, true⟩]
          [⟨2, "Vitamin D", some "evening", true⟩]) "2024-01-01").map PillDose.key).Nodup :=
  generate_doses_unique ⟨[], 1⟩ "2024-01-01" [⟨1, "Aspirin", none, true⟩]
    [⟨2, "Vitamin D", some "evening", true⟩] (by decide) (by decide) (by decide)

end L2L
